import Mathlib

/-!
Shallow embedding of the `bayes` package of datastream/probab
(files `bayes/poisson.go`, `bayes/normal_mu.go`, `bayes/normal_diff.go`),
with verification of the frozen claims about it.

Go `float64` values are modelled as real numbers, `int`/`int64` as `ℤ`
(cast to `ℝ` where the source applies `float64(...)`).  A Go function that
can `panic` is modelled as returning `Option _` (`none` = panic); a function
with no panic path returns a plain value.
-/

noncomputable section

/-- Modelled from the spec: the external Distribution Primitives collaborator
(the repository's `dst` package, which is not part of the core source).
The spec describes it only by its interface: pure, stateless, deterministic
functions — standard-normal density, Normal density/CDF/quantile parametrized
by (mean, std), Gamma density/CDF/quantile/random-variate parametrized by
(shape, scale), Student-t quantile parametrized by degrees of freedom.
We model it as a record of arbitrary real functions, so every theorem below
holds for any implementation of the collaborator. -/
structure Dst where
  GammaPDF : ℝ → ℝ → ℝ → ℝ
  GammaCDF : ℝ → ℝ → ℝ → ℝ
  GammaQtl : ℝ → ℝ → ℝ → ℝ
  GammaNext : ℝ → ℝ → ℝ
  NormalPDF : ℝ → ℝ → ℝ → ℝ
  NormalCDF : ℝ → ℝ → ℝ → ℝ
  NormalQtl : ℝ → ℝ → ℝ → ℝ
  NormalQtlFor : ℝ → ℝ → ℝ → ℝ
  ZPDFAt : ℝ → ℝ
  StudentsTQtl : ℝ → ℝ → ℝ

/-! ## `bayes/poisson.go` -/

/-- `PoissonLambdaPDFFPri`: Poisson λ, posterior PDF, flat prior. -/
def PoissonLambdaPDFFPri (d : Dst) (sumK n : ℤ) : Option (ℝ → ℝ) :=
  if sumK < 0 ∨ n ≤ 0 then none
  else
    let r1 : ℝ := (sumK : ℝ) + 1.0
    let v1 : ℝ := (n : ℝ)
    some (d.GammaPDF r1 (1 / v1))

/-- `PoissonLambdaPDFJPri`: Poisson λ, posterior PDF, Jeffreys' prior. -/
def PoissonLambdaPDFJPri (d : Dst) (sumK n : ℤ) : Option (ℝ → ℝ) :=
  if sumK < 0 ∨ n ≤ 0 then none
  else
    let r1 : ℝ := (sumK : ℝ) + 0.5
    let v1 : ℝ := (n : ℝ)
    some (d.GammaPDF r1 (1 / v1))

/-- `PoissonLambdaPDFGPri`: Poisson λ, posterior PDF, gamma prior. -/
def PoissonLambdaPDFGPri (d : Dst) (sumK n : ℤ) (r v : ℝ) : Option (ℝ → ℝ) :=
  if sumK < 0 ∨ n ≤ 0 then none
  else if r < 0 ∨ v < 0 then none
  else
    let r1 : ℝ := r + (sumK : ℝ)
    let v1 : ℝ := v + (n : ℝ)
    some (d.GammaPDF r1 (1 / v1))

/-- `PoissonLambdaCDFFPri`: Poisson λ, posterior CDF, flat prior. -/
def PoissonLambdaCDFFPri (d : Dst) (sumK n : ℤ) : Option (ℝ → ℝ) :=
  if sumK < 0 ∨ n ≤ 0 then none
  else
    let r1 : ℝ := (sumK : ℝ) + 1.0
    let v1 : ℝ := (n : ℝ)
    some (d.GammaCDF r1 (1 / v1))

/-- `PoissonLambdaCDFJPri`: Poisson λ, posterior CDF, Jeffreys' prior. -/
def PoissonLambdaCDFJPri (d : Dst) (sumK n : ℤ) : Option (ℝ → ℝ) :=
  if sumK < 0 ∨ n ≤ 0 then none
  else
    let r1 : ℝ := (sumK : ℝ) + 0.5
    let v1 : ℝ := (n : ℝ)
    some (d.GammaCDF r1 (1 / v1))

/-- `PoissonLambdaCDFGPri`: Poisson λ, posterior CDF, gamma prior. -/
def PoissonLambdaCDFGPri (d : Dst) (sumK n : ℤ) (r v : ℝ) : Option (ℝ → ℝ) :=
  if sumK < 0 ∨ n ≤ 0 then none
  else if r < 0 ∨ v < 0 then none
  else
    let r1 : ℝ := r + (sumK : ℝ)
    let v1 : ℝ := v + (n : ℝ)
    some (d.GammaCDF r1 (1 / v1))

/-- `PoissonLambdaQtlFPri`: Poisson λ, posterior quantile function, flat prior. -/
def PoissonLambdaQtlFPri (d : Dst) (sumK n : ℤ) : Option (ℝ → ℝ) :=
  if sumK < 0 ∨ n ≤ 0 then none
  else
    let r1 : ℝ := (sumK : ℝ) + 1.0
    let v1 : ℝ := (n : ℝ)
    some (d.GammaQtl r1 (1 / v1))

/-- `PoissonLambdaQtlJPri`: Poisson λ, posterior quantile function, Jeffreys' prior. -/
def PoissonLambdaQtlJPri (d : Dst) (sumK n : ℤ) : Option (ℝ → ℝ) :=
  if sumK < 0 ∨ n ≤ 0 then none
  else
    let r1 : ℝ := (sumK : ℝ) + 0.5
    let v1 : ℝ := (n : ℝ)
    some (d.GammaQtl r1 (1 / v1))

/-- `PoissonLambdaQtlGPri`: Poisson λ, posterior quantile function, gamma prior. -/
def PoissonLambdaQtlGPri (d : Dst) (sumK n : ℤ) (r v : ℝ) : Option (ℝ → ℝ) :=
  if sumK < 0 ∨ n ≤ 0 then none
  else if r < 0 ∨ v < 0 then none
  else
    let r1 : ℝ := r + (sumK : ℝ)
    let v1 : ℝ := v + (n : ℝ)
    some (d.GammaQtl r1 (1 / v1))

/-- `PoissonLambdaNextFPri`: random number drawn from the posterior, flat prior.
The draw is modelled as the collaborator's (deterministic-in-parameters)
random-variate function applied to the posterior (shape, scale). -/
def PoissonLambdaNextFPri (d : Dst) (sumK n : ℤ) : Option ℝ :=
  if sumK < 0 ∨ n ≤ 0 then none
  else
    let r1 : ℝ := (sumK : ℝ) + 1.0
    let v1 : ℝ := (n : ℝ)
    some (d.GammaNext r1 (1 / v1))

/-- `PoissonLambdaNextJPri`: random number drawn from the posterior, Jeffreys' prior. -/
def PoissonLambdaNextJPri (d : Dst) (sumK n : ℤ) : Option ℝ :=
  if sumK < 0 ∨ n ≤ 0 then none
  else
    let r1 : ℝ := (sumK : ℝ) + 0.5
    let v1 : ℝ := (n : ℝ)
    some (d.GammaNext r1 (1 / v1))

/-- `PoissonLambdaNextGPri`: random number drawn from the posterior, Gamma prior. -/
def PoissonLambdaNextGPri (d : Dst) (sumK n : ℤ) (r v : ℝ) : Option ℝ :=
  if sumK < 0 ∨ n ≤ 0 then none
  else if r < 0 ∨ v < 0 then none
  else
    let r1 : ℝ := r + (sumK : ℝ)
    let v1 : ℝ := v + (n : ℝ)
    some (d.GammaNext r1 (1 / v1))

/-- `PoissonLambdaLike`: likelihood of Poisson λ. -/
def PoissonLambdaLike (sumK n : ℤ) (lam : ℝ) : ℝ :=
  lam * (sumK : ℝ) * Real.exp ((-n : ℝ) * lam)

/-- `PoissonLambdaEqvSize`: equivalent sample size of the prior. -/
def PoissonLambdaEqvSize (v : ℝ) : ℝ :=
  (⌊v⌋ : ℝ)

/-- `PoissonLambdaPostMean`: posterior mean (as written in the source:
`r1 := float64(sumK) + 1.0; v1 := 1.0; return r1 / v1`). -/
def PoissonLambdaPostMean (sumK _n : ℤ) (_r _v : ℝ) : ℝ :=
  let r1 : ℝ := (sumK : ℝ) + 1.0
  let v1 : ℝ := 1.0
  r1 / v1

/-- `PoissonLambdaPostMeanBias`: posterior mean bias. -/
def PoissonLambdaPostMeanBias (r v lam : ℝ) : ℝ :=
  (r - v * lam) / (v + 1)

/-- `PoissonLambdaPostVar`: posterior variance. -/
def PoissonLambdaPostVar (_r v lam : ℝ) : ℝ :=
  lam / (v * v)

/-- `PoissonLambdaIQR`: posterior interquartile range of λ. -/
def PoissonLambdaIQR (d : Dst) (sumK n : ℤ) (r v : ℝ) : Option ℝ :=
  (PoissonLambdaQtlGPri d sumK n r v).map (fun qf => qf 0.75 - qf 0.25)

/-- `PoissonLambdaCrIGPri`: credible interval for λ, gamma prior, equal tail area. -/
def PoissonLambdaCrIGPri (d : Dst) (sumK n : ℤ) (r v α : ℝ) : Option (ℝ × ℝ) :=
  (PoissonLambdaQtlGPri d sumK n r v).map (fun qf => (qf (α / 2), qf (1 - α / 2)))

/-- `PoissonLambdaOneSidedTst`: one-sided test for λ (`H0: λ ≤ λ0`). -/
def PoissonLambdaOneSidedTst (d : Dst) (sumK n : ℤ) (r v α lam0 : ℝ) : Option Bool :=
  (PoissonLambdaCDFGPri d sumK n r v).map (fun cdf => decide (cdf lam0 < α))

/-- `PoissonLambdaOneSidedOdds`: one-sided odds ratio for λ. -/
def PoissonLambdaOneSidedOdds (d : Dst) (sumK n : ℤ) (r v lam0 : ℝ) : Option ℝ :=
  (PoissonLambdaCDFGPri d sumK n r v).map (fun cdf => cdf lam0 / (1 - cdf lam0))

/-- `PoissonLambdaTwoSidedTst`: two-sided test for λ (`H0: λ = λ0`),
rejects iff λ0 falls outside the equal-tail credible interval. -/
def PoissonLambdaTwoSidedTst (d : Dst) (sumK n : ℤ) (r v α lam0 : ℝ) : Option Bool :=
  (PoissonLambdaCrIGPri d sumK n r v α).map
    (fun lohi => decide (lam0 < lohi.1 ∨ lohi.2 < lam0))

/-! ## `bayes/normal_mu.go` -/

/-- `NormMuSinglePMFDPri`: PMF of the posterior of Normal μ with known σ and a
discrete prior, single observation.  Unnormalized mass of candidate `μ[i]` is
`μPri[i] * ZPDFAt((y - μ[i]) / σ)`; the result is normalized by the total.
Panics (`none`) when the two arrays have different lengths. -/
def NormMuSinglePMFDPri (d : Dst) (y σ : ℝ) (μ μPri : List ℝ) : Option (List ℝ) :=
  if μPri.length ≠ μ.length then none
  else
    let post := List.zipWith (fun μi pi => pi * d.ZPDFAt ((y - μi) / σ)) μ μPri
    some (post.map (fun x => x / post.sum))

/-- `NormMuPMFDPri`: PMF of the posterior of Normal μ with known σ and a
discrete prior, for a sample of `nObs` observations with mean `ybar`.
Unnormalized mass of candidate `μ[i]` is
`μPri[i] * exp(-1/(2σ²/n) · (ybar - μ[i])²)`. -/
def NormMuPMFDPri (nObs : ℤ) (ybar σ : ℝ) (μ μPri : List ℝ) :
    Option (List ℝ) :=
  if μPri.length ≠ μ.length then none
  else
    let n : ℝ := (nObs : ℝ)
    let post := List.zipWith
      (fun μi pi =>
        pi * Real.exp (-1 / (2 * (σ * σ) / n) * ((ybar - μi) * (ybar - μi)))) μ μPri
    some (post.map (fun x => x / post.sum))

/-- `NormMuPostMean`: posterior mean for unknown Normal μ with known σ
(Bolstad eq. 11.6).  No input validation in the source. -/
def NormMuPostMean (nObs : ℤ) (ybar σ μPri σPri : ℝ) : ℝ :=
  let σ2 := σ * σ
  let n : ℝ := (nObs : ℝ)
  let σ2Pri := σPri * σPri
  (μPri / σ2Pri) / (n / σ2 + 1 / σ2Pri) + ybar * (n / σ2) / (n / σ2 + 1 / σ2Pri)

/-- `NormMuPostStd`: posterior standard deviation for unknown Normal μ with
known σ (Bolstad eq. 11.5).  No input validation in the source. -/
def NormMuPostStd (nObs : ℤ) (σ _μPri σPri : ℝ) : ℝ :=
  let σ2 := σ * σ
  let n : ℝ := (nObs : ℝ)
  let σ2Pri := σPri * σPri
  Real.sqrt ((σ2 * σ2Pri) / (σ2 + n * σ2Pri))

/-- `NormMuSingleQtlFPri`: quantile of the posterior of Normal μ, known σ,
flat prior, single observation.  No input validation in the source. -/
def NormMuSingleQtlFPri (d : Dst) (y σ p : ℝ) : ℝ :=
  d.NormalQtlFor y σ p

/-- `NormMuQtlFPri`: quantile of the posterior of Normal μ, known σ, flat
prior, for a sample.  Panics (`none`) when `σ ≤ 0`. -/
def NormMuQtlFPri (d : Dst) (nObs : ℤ) (ybar σ p : ℝ) : Option ℝ :=
  if σ ≤ 0 then none
  else
    let n : ℝ := (nObs : ℝ)
    let σ2 := σ * σ
    some (d.NormalQtlFor ybar (Real.sqrt (σ2 / n)) p)

/-- `NormMuSingleQtlNPri`: quantile of the posterior of Normal μ, known σ,
Normal prior, single observation (Bolstad eq. 11.4).
Panics (`none`) when `σ ≤ 0`. -/
def NormMuSingleQtlNPri (d : Dst) (y σ μPri σPri p : ℝ) : Option ℝ :=
  if σ ≤ 0 then none
  else
    let σ2 := σ * σ
    let σ2Pri := σPri * σPri
    let μPost := (σ2 * μPri + σ2Pri * y) / (σ2 + σ2Pri)
    let σ2Post := (σ2 * σ2Pri) / (σ2 + σ2Pri)
    some (d.NormalQtlFor μPost (Real.sqrt σ2Post) p)

/-- `NormMuQtlNPri`: quantile of the posterior of Normal μ, known σ, Normal
prior, for a sample (Bolstad eq. 11.5, 11.6).  No input validation in the
source. -/
def NormMuQtlNPri (d : Dst) (nObs : ℤ) (ybar σ μPri σPri p : ℝ) : ℝ :=
  let n : ℝ := (nObs : ℝ)
  let σ2 := σ * σ
  let σ2Pri := σPri * σPri
  let σ2Post := (σ2 * σ2Pri) / (σ2 + n * σ2Pri)
  let μPost := (μPri / σ2Pri) / (n / σ2 + 1 / σ2Pri) + ybar * (n / σ2) / (n / σ2 + 1 / σ2Pri)
  d.NormalQtlFor μPost (Real.sqrt σ2Post) p

/-- `NormMuCrINPriKnown`: credible interval for Normal μ, known σ, Normal
prior.  No input validation in the source. -/
def NormMuCrINPriKnown (d : Dst) (nObs : ℤ) (ybar σ μPri σPri α : ℝ) : ℝ × ℝ :=
  let n : ℝ := (nObs : ℝ)
  let σ2 := σ * σ
  let σ2Pri := σPri * σPri
  let σ2Post := (σ2 * σ2Pri) / (σ2 + n * σ2Pri)
  let μPost := (μPri / σ2Pri) / (n / σ2 + 1 / σ2Pri) + ybar * (n / σ2) / (n / σ2 + 1 / σ2Pri)
  let σPost := Real.sqrt σ2Post
  (d.NormalQtlFor μPost σPost (α / 2), d.NormalQtlFor μPost σPost (1 - α / 2))

/-- `NormMuCrIFPriKnown`: credible interval for Normal μ, known σ, flat
prior.  No input validation in the source. -/
def NormMuCrIFPriKnown (d : Dst) (nObs : ℤ) (ybar σ α : ℝ) : ℝ × ℝ :=
  let n : ℝ := (nObs : ℝ)
  let σPost := Real.sqrt (σ * σ / n)
  (d.NormalQtlFor ybar σPost (α / 2), d.NormalQtlFor ybar σPost (1 - α / 2))

/-! ## `bayes/normal_diff.go` -/

/-- `NormalMuDiffPDFNPriKn`: posterior PDF of μ1-μ2, known variances,
Normal priors. -/
def NormalMuDiffPDFNPriKn (d : Dst) (nObs1 nObs2 : ℤ)
    (ybar1 ybar2 σ1 σ2 μ1Pri σ1Pri μ2Pri σ2Pri : ℝ) : ℝ → ℝ :=
  let μ1Post := NormMuPostMean nObs1 ybar1 σ1 μ1Pri σ1Pri
  let σ1Post := NormMuPostStd nObs1 σ1 μ1Pri σ1Pri
  let μ2Post := NormMuPostMean nObs2 ybar2 σ2 μ2Pri σ2Pri
  let σ2Post := NormMuPostStd nObs2 σ2 μ2Pri σ2Pri
  let μdPost := μ1Post - μ2Post
  let σdPost := Real.sqrt (σ1Post * σ1Post + σ2Post * σ2Post)
  d.NormalPDF μdPost σdPost

/-- `NormalMuDiffCDFNPriKn`: posterior CDF of μ1-μ2, known variances,
Normal priors. -/
def NormalMuDiffCDFNPriKn (d : Dst) (nObs1 nObs2 : ℤ)
    (ybar1 ybar2 σ1 σ2 μ1Pri σ1Pri μ2Pri σ2Pri : ℝ) : ℝ → ℝ :=
  let μ1Post := NormMuPostMean nObs1 ybar1 σ1 μ1Pri σ1Pri
  let σ1Post := NormMuPostStd nObs1 σ1 μ1Pri σ1Pri
  let μ2Post := NormMuPostMean nObs2 ybar2 σ2 μ2Pri σ2Pri
  let σ2Post := NormMuPostStd nObs2 σ2 μ2Pri σ2Pri
  let μdPost := μ1Post - μ2Post
  let σdPost := Real.sqrt (σ1Post * σ1Post + σ2Post * σ2Post)
  d.NormalCDF μdPost σdPost

/-- `NormalMuDiffQtlNPriKn`: posterior quantile of μ1-μ2, known variances,
Normal priors. -/
def NormalMuDiffQtlNPriKn (d : Dst) (nObs1 nObs2 : ℤ)
    (ybar1 ybar2 σ1 σ2 μ1Pri σ1Pri μ2Pri σ2Pri : ℝ) : ℝ → ℝ :=
  let μ1Post := NormMuPostMean nObs1 ybar1 σ1 μ1Pri σ1Pri
  let σ1Post := NormMuPostStd nObs1 σ1 μ1Pri σ1Pri
  let μ2Post := NormMuPostMean nObs2 ybar2 σ2 μ2Pri σ2Pri
  let σ2Post := NormMuPostStd nObs2 σ2 μ2Pri σ2Pri
  let μdPost := μ1Post - μ2Post
  let σdPost := Real.sqrt (σ1Post * σ1Post + σ2Post * σ2Post)
  d.NormalQtl μdPost σdPost

/-- `satterthwaitenu`: Satterthwaite's adjusted degrees of freedom,
rounded to the nearest integer by the comparison
`v - floor(v) <= ceil(v) - v → floor(v), else ceil(v)`. -/
def satterthwaitenu (estvar1 : ℝ) (nObs1 : ℤ) (estvar2 : ℝ) (nObs2 : ℤ) : ℝ :=
  let n1 : ℝ := (nObs1 : ℝ)
  let n2 : ℝ := (nObs2 : ℝ)
  let f1 := (estvar1 / n1 + estvar2 / n2) * (estvar1 / n1 + estvar2 / n2)
  let f2 := (estvar1 / n1) * (estvar1 / n1) / (n1 + 1)
  let f3 := (estvar2 / n2) * (estvar2 / n2) / (n2 + 1)
  let v := f1 / (f2 + f3)
  if v - (⌊v⌋ : ℝ) ≤ (⌈v⌉ : ℝ) - v then (⌊v⌋ : ℝ) else (⌈v⌉ : ℝ)

/-- `NormalMuDiffQtlNPriUn`: quantile of μ1-μ2, unknown variances
(Behrens-Fisher), Normal priors.  The trailing `p` parameter of the
constructor is shadowed by the parameter of the returned closure. -/
def NormalMuDiffQtlNPriUn (d : Dst) (nObs1 nObs2 : ℤ)
    (ybar1 ybar2 s1 s2 μ1Pri σ1Pri μ2Pri σ2Pri p : ℝ) : ℝ → ℝ :=
  fun p =>
    let μ1Post := NormMuPostMean nObs1 ybar1 s1 μ1Pri σ1Pri
    let σ1Post := NormMuPostStd nObs1 s1 μ1Pri σ1Pri
    let μ2Post := NormMuPostMean nObs2 ybar2 s2 μ2Pri σ2Pri
    let σ2Post := NormMuPostStd nObs2 s2 μ2Pri σ2Pri
    let μdPost := μ1Post - μ2Post
    let nu := satterthwaitenu (s1 * s1) nObs1 (s2 * s2) nObs2
    let t := d.StudentsTQtl nu
    let α := 1 - 2 * p
    if p < 0.5 then
      μdPost - t (α / 2) * Real.sqrt (σ1Post * σ1Post + σ2Post * σ2Post)
    else
      μdPost + t (α / 2) * Real.sqrt (σ1Post * σ1Post + σ2Post * σ2Post)

/-- `NormalMuDiffCrINPriUn`: credible interval of μ1-μ2, unknown variances
(Behrens-Fisher), Normal priors.  The trailing `α` parameter of the
constructor is shadowed by the parameter of the returned closure. -/
def NormalMuDiffCrINPriUn (d : Dst) (nObs1 nObs2 : ℤ)
    (ybar1 ybar2 s1 s2 μ1Pri σ1Pri μ2Pri σ2Pri α : ℝ) : ℝ → ℝ × ℝ :=
  fun α =>
    let μ1Post := NormMuPostMean nObs1 ybar1 s1 μ1Pri σ1Pri
    let σ1Post := NormMuPostStd nObs1 s1 μ1Pri σ1Pri
    let μ2Post := NormMuPostMean nObs2 ybar2 s2 μ2Pri σ2Pri
    let σ2Post := NormMuPostStd nObs2 s2 μ2Pri σ2Pri
    let μdPost := μ1Post - μ2Post
    let nu := satterthwaitenu (s1 * s1) nObs1 (s2 * s2) nObs2
    let t := d.StudentsTQtl nu
    (μdPost - t (α / 2) * Real.sqrt (σ1Post * σ1Post + σ2Post * σ2Post),
     μdPost + t (α / 2) * Real.sqrt (σ1Post * σ1Post + σ2Post * σ2Post))

/-- `NormalMuDiffCrIFPriUn`: credible interval of μ1-μ2, unknown variances
(Behrens-Fisher), flat priors.  The trailing `α` parameter of the
constructor is shadowed by the parameter of the returned closure. -/
def NormalMuDiffCrIFPriUn (d : Dst) (nObs1 nObs2 : ℤ)
    (ybar1 ybar2 s1 s2 μ1Pri σ1Pri μ2Pri σ2Pri α : ℝ) : ℝ → ℝ × ℝ :=
  fun α =>
    let μ1Post := NormMuPostMean nObs1 ybar1 s1 μ1Pri σ1Pri
    let μ2Post := NormMuPostMean nObs2 ybar2 s2 μ2Pri σ2Pri
    let μdPost := μ1Post - μ2Post
    let nu := satterthwaitenu (s1 * s1) nObs1 (s2 * s2) nObs2
    let t := d.StudentsTQtl nu
    (μdPost - t (α / 2) * Real.sqrt (s1 * s1 + s2 * s2),
     μdPost + t (α / 2) * Real.sqrt (s1 * s1 + s2 * s2))

/-- `NormalMuDiffMomentsNPriKn`: posterior moments (mean, std) of μ1-μ2,
known variances, Normal priors. -/
def NormalMuDiffMomentsNPriKn (nObs1 nObs2 : ℤ)
    (ybar1 ybar2 σ1 σ2 μ1Pri σ1Pri μ2Pri σ2Pri : ℝ) : ℝ × ℝ :=
  let μ1Post := NormMuPostMean nObs1 ybar1 σ1 μ1Pri σ1Pri
  let σ1Post := NormMuPostStd nObs1 σ1 μ1Pri σ1Pri
  let μ2Post := NormMuPostMean nObs2 ybar2 σ2 μ2Pri σ2Pri
  let σ2Post := NormMuPostStd nObs2 σ2 μ2Pri σ2Pri
  let μdPost := μ1Post - μ2Post
  let σdPost := Real.sqrt (σ1Post * σ1Post + σ2Post * σ2Post)
  (μdPost, σdPost)

/-- A concrete instance of the Distribution Primitives collaborator, used to
instantiate universally-quantified statements at a specific implementation. -/
def dst0 : Dst where
  GammaPDF := fun r s x => r + s + x
  GammaCDF := fun r s x => r + s + x
  GammaQtl := fun r s p => r + s + p
  GammaNext := fun r s => r + s
  NormalPDF := fun m s x => m + s + x
  NormalCDF := fun m s x => m + s + x
  NormalQtl := fun m s p => m + s + p
  NormalQtlFor := fun m s p => m + s + p
  ZPDFAt := fun _ => 1
  StudentsTQtl := fun nu x => nu + x

/-! ## Theorems -/

/-- Every entry of a list of non-negative reals is at most the list sum. -/
theorem list_get_le_sum (l : List ℝ) (h : ∀ x ∈ l, 0 ≤ x) :
    ∀ i (hi : i < l.length), l.get ⟨i, hi⟩ ≤ l.sum := by
  induction l with
  | nil =>
    intro i hi
    simp at hi
  | cons a t ih =>
    intro i hi
    have ha : 0 ≤ a := h a (List.mem_cons_self a t)
    have ht : ∀ x ∈ t, 0 ≤ x := fun x hx => h x (List.mem_cons_of_mem a hx)
    cases i with
    | zero =>
      have : 0 ≤ t.sum := List.sum_nonneg ht
      simp only [List.get, List.sum_cons]
      linarith
    | succ j =>
      have hj : j < t.length := by simpa using hi
      have := ih ht j hj
      simp only [List.get, List.sum_cons]
      linarith

/-- Dividing every entry of a list by a constant divides the sum. -/
theorem list_sum_map_div (l : List ℝ) (c : ℝ) :
    (l.map (fun x => x / c)).sum = l.sum / c := by
  induction l with
  | nil => simp
  | cons a t ih => simp [List.sum_cons, ih, add_div]

/-- Normalizing an elementwise-product list (the shared pattern of the two
discrete-prior posterior updates): when every unnormalized mass
`f μ[i] μPri[i]` is non-negative and at least one is positive, the total is
positive, the normalized list sums to `1`, and each normalized entry is the
unnormalized mass divided by the total. -/
theorem zipWith_normalize_spec (f : ℝ → ℝ → ℝ) (μ μPri : List ℝ)
    (hlen : μPri.length = μ.length)
    (h0 : ∀ i (hi : i < μ.length) (hi' : i < μPri.length),
      0 ≤ f (μ.get ⟨i, hi⟩) (μPri.get ⟨i, hi'⟩))
    (hex : ∃ i, ∃ hi : i < μ.length, ∃ hi' : i < μPri.length,
      0 < f (μ.get ⟨i, hi⟩) (μPri.get ⟨i, hi'⟩)) :
    0 < (List.zipWith f μ μPri).sum ∧
    ((List.zipWith f μ μPri).map
      (fun x => x / (List.zipWith f μ μPri).sum)).sum = 1 ∧
    ∀ i (hi : i < μ.length) (hi' : i < μPri.length)
      (hp : i < ((List.zipWith f μ μPri).map
        (fun x => x / (List.zipWith f μ μPri).sum)).length),
      ((List.zipWith f μ μPri).map
        (fun x => x / (List.zipWith f μ μPri).sum)).get ⟨i, hp⟩ =
        f (μ.get ⟨i, hi⟩) (μPri.get ⟨i, hi'⟩) / (List.zipWith f μ μPri).sum := by
  set u : List ℝ := List.zipWith f μ μPri with hu
  have hul : u.length = μ.length := by
    rw [hu, List.length_zipWith, hlen, min_self]
  have hget : ∀ i (hi : i < μ.length) (hi' : i < μPri.length) (hiu : i < u.length),
      u.get ⟨i, hiu⟩ = f (μ.get ⟨i, hi⟩) (μPri.get ⟨i, hi'⟩) := by
    intro i hi hi' hiu
    simp [hu, List.getElem_zipWith]
  have hnn : ∀ x ∈ u, 0 ≤ x := by
    intro x hx
    obtain ⟨i, hiu, rfl⟩ := List.mem_iff_getElem.mp hx
    have hi : i < μ.length := hul ▸ hiu
    have hi' : i < μPri.length := by omega
    have hg := hget i hi hi' hiu
    simp only [List.get_eq_getElem] at hg
    rw [hg]
    exact h0 i hi hi'
  have hs : 0 < u.sum := by
    obtain ⟨i, hi, hi', hp⟩ := hex
    have hiu : i < u.length := hul ▸ hi
    have := list_get_le_sum u hnn i hiu
    rw [hget i hi hi' hiu] at this
    linarith
  refine ⟨hs, ?_, ?_⟩
  · rw [list_sum_map_div, div_self hs.ne']
  · intro i hi hi' hp
    have hiu : i < u.length := hul ▸ hi
    have hm : (u.map (fun x => x / u.sum)).get ⟨i, hp⟩ = u.get ⟨i, hiu⟩ / u.sum := by
      simp [List.getElem_map]
    rw [hm, hget i hi hi' hiu]

/-- For every real `v`, its ceiling equals its floor (when `v` is an
integer) or its floor plus one. -/
theorem ceil_floor_dichotomy (v : ℝ) :
    (⌈v⌉ : ℝ) = (⌊v⌋ : ℝ) ∨ (⌈v⌉ : ℝ) = (⌊v⌋ : ℝ) + 1 := by
  by_cases hv : (⌊v⌋ : ℝ) = v
  · left
    have hv2 : v = ((⌊v⌋ : ℤ) : ℝ) := hv.symm
    have h : ⌈v⌉ = ⌊v⌋ := by
      rw [hv2, Int.ceil_intCast, Int.floor_intCast]
    exact_mod_cast congrArg (fun z : ℤ => (z : ℝ)) h
  · right
    have hfl : (⌊v⌋ : ℝ) ≤ v := Int.floor_le v
    have hcl : v ≤ (⌈v⌉ : ℝ) := Int.le_ceil v
    have h1 : ⌈v⌉ ≤ ⌊v⌋ + 1 := Int.ceil_le_floor_add_one v
    have h2 : (⌊v⌋ : ℝ) < v := lt_of_le_of_ne hfl hv
    have h3 : ⌊v⌋ < ⌈v⌉ := by exact_mod_cast h2.trans_le hcl
    have h4 : ⌈v⌉ = ⌊v⌋ + 1 := le_antisymm h1 h3
    exact_mod_cast congrArg (fun z : ℤ => (z : ℝ)) h4

/-- The rounding scheme of `satterthwaitenu` (`floor` when
`v - floor v ≤ ceil v - v`, else `ceil`) picks an integer within `1/2` of
`v`: the floor when the fractional part is at most `1/2` (so ties go to the
floor) and the ceiling when it exceeds `1/2`. -/
theorem roundTieFloor_spec (v : ℝ) :
    |(if v - (⌊v⌋ : ℝ) ≤ (⌈v⌉ : ℝ) - v then (⌊v⌋ : ℝ) else (⌈v⌉ : ℝ)) - v| ≤ 1 / 2 ∧
    (v - (⌊v⌋ : ℝ) ≤ 1 / 2 →
      (if v - (⌊v⌋ : ℝ) ≤ (⌈v⌉ : ℝ) - v then (⌊v⌋ : ℝ) else (⌈v⌉ : ℝ)) = (⌊v⌋ : ℝ)) ∧
    (1 / 2 < v - (⌊v⌋ : ℝ) →
      (if v - (⌊v⌋ : ℝ) ≤ (⌈v⌉ : ℝ) - v then (⌊v⌋ : ℝ) else (⌈v⌉ : ℝ)) = (⌈v⌉ : ℝ)) := by
  have hfl : (⌊v⌋ : ℝ) ≤ v := Int.floor_le v
  have hcl : v ≤ (⌈v⌉ : ℝ) := Int.le_ceil v
  have hd := ceil_floor_dichotomy v
  refine ⟨?_, ?_, ?_⟩
  · split_ifs with hif
    · rw [abs_le]
      rcases hd with h | h <;> constructor <;> linarith
    · push_neg at hif
      rw [abs_le]
      rcases hd with h | h <;> constructor <;> linarith
  · intro hle
    split_ifs with hif
    · rfl
    · push_neg at hif
      rcases hd with h | h <;> linarith
  · intro hlt
    split_ifs with hif
    · rcases hd with h | h <;> linarith
    · rfl

/-- C3 (counterexample): at `estvar1 = 2, nObs1 = 2, estvar2 = 4, nObs2 = 4`
the Satterthwaite quotient `v` is exactly `15/2`, an exact tie between floor
and ceiling, and `satterthwaitenu` returns the floor `7`, not the ceiling
`8` the claim demands. -/
theorem satterthwaitenu_tie_rounds_down_cex :
    (2 / ((2 : ℤ) : ℝ) + 4 / ((4 : ℤ) : ℝ)) ^ 2 /
        ((2 / ((2 : ℤ) : ℝ)) ^ 2 / (((2 : ℤ) : ℝ) + 1) +
         (4 / ((4 : ℤ) : ℝ)) ^ 2 / (((4 : ℤ) : ℝ) + 1)) = 15 / 2 ∧
    (15 / 2 : ℝ) - (⌊(15 / 2 : ℝ)⌋ : ℝ) = (⌈(15 / 2 : ℝ)⌉ : ℝ) - 15 / 2 ∧
    satterthwaitenu 2 2 4 4 = 7 ∧
    satterthwaitenu 2 2 4 4 ≠ (⌈(15 / 2 : ℝ)⌉ : ℝ) := by
  have h1 : (⌊(15 / 2 : ℝ)⌋ : ℤ) = 7 := by norm_num
  have h2 : (⌈(15 / 2 : ℝ)⌉ : ℤ) = 8 := by
    rw [Int.ceil_eq_iff]
    norm_num
  refine ⟨by norm_num, by norm_num [h1, h2], ?_, ?_⟩
  · simp only [satterthwaitenu]
    norm_num [h1, h2]
  · simp only [satterthwaitenu]
    norm_num [h1, h2]

/-- C3 (amended): for positive inputs, `satterthwaitenu` computes
`v = (s1²/n1 + s2²/n2)² / ((s1²/n1)²/(n1+1) + (s2²/n2)²/(n2+1))` and returns
the nearest integer to `v`, where a tie (`v` exactly halfway between
`floor v` and `ceil v`, i.e. fractional part `1/2`) rounds to the SMALLER
integer: the floor wins whenever `v - floor v ≤ 1/2`, the ceiling wins
when `v - floor v > 1/2`. -/
theorem satterthwaitenu_nearest_tie_floor (estvar1 estvar2 : ℝ) (nObs1 nObs2 : ℤ)
    (h1 : 0 < estvar1) (h2 : 0 < estvar2) (hn1 : 0 < nObs1) (hn2 : 0 < nObs2) :
    ∃ v : ℝ,
      v = (estvar1 / (nObs1 : ℝ) + estvar2 / (nObs2 : ℝ)) ^ 2 /
          ((estvar1 / (nObs1 : ℝ)) ^ 2 / ((nObs1 : ℝ) + 1) +
           (estvar2 / (nObs2 : ℝ)) ^ 2 / ((nObs2 : ℝ) + 1)) ∧
      |satterthwaitenu estvar1 nObs1 estvar2 nObs2 - v| ≤ 1 / 2 ∧
      (v - (⌊v⌋ : ℝ) ≤ 1 / 2 →
        satterthwaitenu estvar1 nObs1 estvar2 nObs2 = (⌊v⌋ : ℝ)) ∧
      (1 / 2 < v - (⌊v⌋ : ℝ) →
        satterthwaitenu estvar1 nObs1 estvar2 nObs2 = (⌈v⌉ : ℝ)) := by
  refine ⟨(estvar1 / (nObs1 : ℝ) + estvar2 / (nObs2 : ℝ)) *
      (estvar1 / (nObs1 : ℝ) + estvar2 / (nObs2 : ℝ)) /
      ((estvar1 / (nObs1 : ℝ)) * (estvar1 / (nObs1 : ℝ)) / ((nObs1 : ℝ) + 1) +
       (estvar2 / (nObs2 : ℝ)) * (estvar2 / (nObs2 : ℝ)) / ((nObs2 : ℝ) + 1)),
    by ring, ?_, ?_, ?_⟩
  · simp only [satterthwaitenu]
    exact (roundTieFloor_spec _).1
  · simp only [satterthwaitenu]
    exact (roundTieFloor_spec _).2.1
  · simp only [satterthwaitenu]
    exact (roundTieFloor_spec _).2.2

/-- C3 witness, at the spec's reference vector
`estvar1 = 4, n1 = 10, estvar2 = 9, n2 = 15`. -/
theorem satterthwaitenu_nearest_tie_floor_witness :
    (0 : ℝ) < 4 ∧ (0 : ℝ) < 9 ∧ (0 : ℤ) < 10 ∧ (0 : ℤ) < 15 ∧
    (∃ v : ℝ,
      v = (4 / ((10 : ℤ) : ℝ) + 9 / ((15 : ℤ) : ℝ)) ^ 2 /
          ((4 / ((10 : ℤ) : ℝ)) ^ 2 / (((10 : ℤ) : ℝ) + 1) +
           (9 / ((15 : ℤ) : ℝ)) ^ 2 / (((15 : ℤ) : ℝ) + 1)) ∧
      |satterthwaitenu 4 10 9 15 - v| ≤ 1 / 2 ∧
      (v - (⌊v⌋ : ℝ) ≤ 1 / 2 → satterthwaitenu 4 10 9 15 = (⌊v⌋ : ℝ)) ∧
      (1 / 2 < v - (⌊v⌋ : ℝ) → satterthwaitenu 4 10 9 15 = (⌈v⌉ : ℝ))) :=
  ⟨by norm_num, by norm_num, by norm_num, by norm_num,
    satterthwaitenu_nearest_tie_floor 4 9 10 15
      (by norm_num) (by norm_num) (by norm_num) (by norm_num)⟩

/-- C1: each Poisson-rate posterior accessor (PDF, CDF, quantile, random
variate) computes posterior shape `r1 = r_prior + sumK` and posterior rate
`v1 = v_prior + n`, with `(r_prior, v_prior) = (1, 0)` for the flat prior,
`(0.5, 0)` for Jeffreys' prior and the caller-supplied `(r, v)` for the
Gamma prior, and delegates to the Gamma primitive at shape `r1`,
scale `1/v1`. -/
theorem poisson_accessors_conjugate_update (d : Dst) (sumK n : ℤ) (r v : ℝ)
    (hK : 0 ≤ sumK) (hn : 0 < n) (hr : 0 ≤ r) (hv : 0 ≤ v) :
    PoissonLambdaPDFFPri d sumK n =
      some (d.GammaPDF (1 + (sumK : ℝ)) (1 / (0 + (n : ℝ)))) ∧
    PoissonLambdaCDFFPri d sumK n =
      some (d.GammaCDF (1 + (sumK : ℝ)) (1 / (0 + (n : ℝ)))) ∧
    PoissonLambdaQtlFPri d sumK n =
      some (d.GammaQtl (1 + (sumK : ℝ)) (1 / (0 + (n : ℝ)))) ∧
    PoissonLambdaNextFPri d sumK n =
      some (d.GammaNext (1 + (sumK : ℝ)) (1 / (0 + (n : ℝ)))) ∧
    PoissonLambdaPDFJPri d sumK n =
      some (d.GammaPDF (0.5 + (sumK : ℝ)) (1 / (0 + (n : ℝ)))) ∧
    PoissonLambdaCDFJPri d sumK n =
      some (d.GammaCDF (0.5 + (sumK : ℝ)) (1 / (0 + (n : ℝ)))) ∧
    PoissonLambdaQtlJPri d sumK n =
      some (d.GammaQtl (0.5 + (sumK : ℝ)) (1 / (0 + (n : ℝ)))) ∧
    PoissonLambdaNextJPri d sumK n =
      some (d.GammaNext (0.5 + (sumK : ℝ)) (1 / (0 + (n : ℝ)))) ∧
    PoissonLambdaPDFGPri d sumK n r v =
      some (d.GammaPDF (r + (sumK : ℝ)) (1 / (v + (n : ℝ)))) ∧
    PoissonLambdaCDFGPri d sumK n r v =
      some (d.GammaCDF (r + (sumK : ℝ)) (1 / (v + (n : ℝ)))) ∧
    PoissonLambdaQtlGPri d sumK n r v =
      some (d.GammaQtl (r + (sumK : ℝ)) (1 / (v + (n : ℝ)))) ∧
    PoissonLambdaNextGPri d sumK n r v =
      some (d.GammaNext (r + (sumK : ℝ)) (1 / (v + (n : ℝ)))) := by
  have hguard : ¬(sumK < 0 ∨ n ≤ 0) := by
    simp only [not_or, not_lt, not_le]
    exact ⟨hK, hn⟩
  have hguard2 : ¬(r < 0 ∨ v < 0) := by
    simp only [not_or, not_lt]
    exact ⟨hr, hv⟩
  refine ⟨?_, ?_, ?_, ?_, ?_, ?_, ?_, ?_, ?_, ?_, ?_, ?_⟩
  · simp only [PoissonLambdaPDFFPri, if_neg hguard]
    norm_num [add_comm]
  · simp only [PoissonLambdaCDFFPri, if_neg hguard]
    norm_num [add_comm]
  · simp only [PoissonLambdaQtlFPri, if_neg hguard]
    norm_num [add_comm]
  · simp only [PoissonLambdaNextFPri, if_neg hguard]
    norm_num [add_comm]
  · simp only [PoissonLambdaPDFJPri, if_neg hguard]
    norm_num [add_comm]
  · simp only [PoissonLambdaCDFJPri, if_neg hguard]
    norm_num [add_comm]
  · simp only [PoissonLambdaQtlJPri, if_neg hguard]
    norm_num [add_comm]
  · simp only [PoissonLambdaNextJPri, if_neg hguard]
    norm_num [add_comm]
  · simp only [PoissonLambdaPDFGPri, if_neg hguard, if_neg hguard2]
  · simp only [PoissonLambdaCDFGPri, if_neg hguard, if_neg hguard2]
  · simp only [PoissonLambdaQtlGPri, if_neg hguard, if_neg hguard2]
  · simp only [PoissonLambdaNextGPri, if_neg hguard, if_neg hguard2]

/-- C1 witness. -/
theorem poisson_accessors_conjugate_update_witness :
    (0 : ℤ) ≤ 3 ∧ (0 : ℤ) < 2 ∧ (0 : ℝ) ≤ 1 ∧ (0 : ℝ) ≤ 2 ∧
    (PoissonLambdaPDFFPri dst0 3 2 =
      some (dst0.GammaPDF (1 + ((3 : ℤ) : ℝ)) (1 / (0 + ((2 : ℤ) : ℝ)))) ∧
    PoissonLambdaCDFFPri dst0 3 2 =
      some (dst0.GammaCDF (1 + ((3 : ℤ) : ℝ)) (1 / (0 + ((2 : ℤ) : ℝ)))) ∧
    PoissonLambdaQtlFPri dst0 3 2 =
      some (dst0.GammaQtl (1 + ((3 : ℤ) : ℝ)) (1 / (0 + ((2 : ℤ) : ℝ)))) ∧
    PoissonLambdaNextFPri dst0 3 2 =
      some (dst0.GammaNext (1 + ((3 : ℤ) : ℝ)) (1 / (0 + ((2 : ℤ) : ℝ)))) ∧
    PoissonLambdaPDFJPri dst0 3 2 =
      some (dst0.GammaPDF (0.5 + ((3 : ℤ) : ℝ)) (1 / (0 + ((2 : ℤ) : ℝ)))) ∧
    PoissonLambdaCDFJPri dst0 3 2 =
      some (dst0.GammaCDF (0.5 + ((3 : ℤ) : ℝ)) (1 / (0 + ((2 : ℤ) : ℝ)))) ∧
    PoissonLambdaQtlJPri dst0 3 2 =
      some (dst0.GammaQtl (0.5 + ((3 : ℤ) : ℝ)) (1 / (0 + ((2 : ℤ) : ℝ)))) ∧
    PoissonLambdaNextJPri dst0 3 2 =
      some (dst0.GammaNext (0.5 + ((3 : ℤ) : ℝ)) (1 / (0 + ((2 : ℤ) : ℝ)))) ∧
    PoissonLambdaPDFGPri dst0 3 2 1 2 =
      some (dst0.GammaPDF (1 + ((3 : ℤ) : ℝ)) (1 / (2 + ((2 : ℤ) : ℝ)))) ∧
    PoissonLambdaCDFGPri dst0 3 2 1 2 =
      some (dst0.GammaCDF (1 + ((3 : ℤ) : ℝ)) (1 / (2 + ((2 : ℤ) : ℝ)))) ∧
    PoissonLambdaQtlGPri dst0 3 2 1 2 =
      some (dst0.GammaQtl (1 + ((3 : ℤ) : ℝ)) (1 / (2 + ((2 : ℤ) : ℝ)))) ∧
    PoissonLambdaNextGPri dst0 3 2 1 2 =
      some (dst0.GammaNext (1 + ((3 : ℤ) : ℝ)) (1 / (2 + ((2 : ℤ) : ℝ))))) :=
  ⟨by decide, by decide, by norm_num, by norm_num,
    poisson_accessors_conjugate_update dst0 3 2 1 2
      (by decide) (by decide) (by norm_num) (by norm_num)⟩

/-- C8: the two-sided Poisson test returns `true` (reject `H0: λ = λ0`)
iff `λ0` lies strictly outside the equal-tail credible interval
`[quantile(α/2), quantile(1-α/2)]` produced by the credible-interval
function for the same inputs. -/
theorem poissonLambdaTwoSidedTst_iff_outside_cri (d : Dst) (sumK n : ℤ)
    (r v α lam0 : ℝ) (hK : 0 ≤ sumK) (hn : 0 < n) (hr : 0 ≤ r) (hv : 0 ≤ v)
    (hα0 : 0 < α) (hα1 : α < 1) :
    ∃ lo hi : ℝ,
      PoissonLambdaCrIGPri d sumK n r v α = some (lo, hi) ∧
      (PoissonLambdaTwoSidedTst d sumK n r v α lam0 = some true ↔
        lam0 < lo ∨ hi < lam0) := by
  have hguard : ¬(sumK < 0 ∨ n ≤ 0) := by
    simp only [not_or, not_lt, not_le]
    exact ⟨hK, hn⟩
  have hguard2 : ¬(r < 0 ∨ v < 0) := by
    simp only [not_or, not_lt]
    exact ⟨hr, hv⟩
  refine ⟨d.GammaQtl (r + (sumK : ℝ)) (1 / (v + (n : ℝ))) (α / 2),
    d.GammaQtl (r + (sumK : ℝ)) (1 / (v + (n : ℝ))) (1 - α / 2), ?_, ?_⟩
  · simp only [PoissonLambdaCrIGPri, PoissonLambdaQtlGPri,
      if_neg hguard, if_neg hguard2, Option.map_some']
  · simp only [PoissonLambdaTwoSidedTst, PoissonLambdaCrIGPri,
      PoissonLambdaQtlGPri, if_neg hguard, if_neg hguard2, Option.map_some',
      Option.some_inj, decide_eq_true_iff]

/-- C8 witness. -/
theorem poissonLambdaTwoSidedTst_iff_outside_cri_witness :
    (0 : ℤ) ≤ 3 ∧ (0 : ℤ) < 2 ∧ (0 : ℝ) ≤ 1 ∧ (0 : ℝ) ≤ 2 ∧
    (0 : ℝ) < 1 / 2 ∧ (1 : ℝ) / 2 < 1 ∧
    (∃ lo hi : ℝ,
      PoissonLambdaCrIGPri dst0 3 2 1 2 (1 / 2) = some (lo, hi) ∧
      (PoissonLambdaTwoSidedTst dst0 3 2 1 2 (1 / 2) 100 = some true ↔
        (100 : ℝ) < lo ∨ hi < 100)) :=
  ⟨by decide, by decide, by norm_num, by norm_num, by norm_num, by norm_num,
    poissonLambdaTwoSidedTst_iff_outside_cri dst0 3 2 1 2 (1 / 2) 100
      (by decide) (by decide) (by norm_num) (by norm_num)
      (by norm_num) (by norm_num)⟩

/-- C10: the Poisson likelihood accessor returns `λ * sumK * exp(-n·λ)`:
it is additive (linear) in `sumK`, in particular `0` whenever `sumK = 0`,
and disagrees with the textbook Poisson-sample likelihood
`λ^sumK · exp(-n·λ)` (shown at `sumK = 3, n = 1, λ = 2`). -/
theorem poissonLambdaLike_linear_form (sumK n a b : ℤ) (lam : ℝ) :
    PoissonLambdaLike sumK n lam = lam * (sumK : ℝ) * Real.exp (-(n : ℝ) * lam) ∧
    PoissonLambdaLike 0 n lam = 0 ∧
    PoissonLambdaLike (a + b) n lam =
      PoissonLambdaLike a n lam + PoissonLambdaLike b n lam ∧
    PoissonLambdaLike 3 1 2 ≠ (2 : ℝ) ^ (3 : ℕ) * Real.exp (-(1 : ℝ) * 2) := by
  refine ⟨rfl, ?_, ?_, ?_⟩
  · simp [PoissonLambdaLike]
  · simp only [PoissonLambdaLike]
    push_cast
    ring
  · simp only [PoissonLambdaLike]
    push_cast
    intro h
    nlinarith [Real.exp_pos ((-(1 : ℝ)) * 2)]

/-- C6: `PoissonLambdaPostMean` divides the flat-prior posterior shape
`sumK + 1` by a hardcoded `1.0`, ignoring `n`, `r` and `v`: at the spec's
flat-prior scenario `sumK = 10, n = 5` it returns `11`, not the Gamma
posterior mean `shape/rate = 11/5 = 2.2`. -/
theorem poissonLambdaPostMean_hardcoded_divisor :
    PoissonLambdaPostMean 10 5 1 0 = 11 ∧ (11 : ℝ) ≠ 11 / 5 := by
  constructor
  · norm_num [PoissonLambdaPostMean]
  · norm_num

/-- C9: the trailing scalar argument (`p` resp. `α`) of the three
unknown-variance (Behrens-Fisher) difference-of-means constructors has no
effect: for any two values of that argument the returned closures are
equal (the result depends only on the argument of the returned closure). -/
theorem normalMuDiff_unknownVar_trailing_arg_unused (d : Dst) (nObs1 nObs2 : ℤ)
    (ybar1 ybar2 s1 s2 μ1Pri σ1Pri μ2Pri σ2Pri p p' α α' : ℝ) :
    NormalMuDiffQtlNPriUn d nObs1 nObs2 ybar1 ybar2 s1 s2 μ1Pri σ1Pri μ2Pri σ2Pri p =
      NormalMuDiffQtlNPriUn d nObs1 nObs2 ybar1 ybar2 s1 s2 μ1Pri σ1Pri μ2Pri σ2Pri p' ∧
    NormalMuDiffCrINPriUn d nObs1 nObs2 ybar1 ybar2 s1 s2 μ1Pri σ1Pri μ2Pri σ2Pri α =
      NormalMuDiffCrINPriUn d nObs1 nObs2 ybar1 ybar2 s1 s2 μ1Pri σ1Pri μ2Pri σ2Pri α' ∧
    NormalMuDiffCrIFPriUn d nObs1 nObs2 ybar1 ybar2 s1 s2 μ1Pri σ1Pri μ2Pri σ2Pri α =
      NormalMuDiffCrIFPriUn d nObs1 nObs2 ybar1 ybar2 s1 s2 μ1Pri σ1Pri μ2Pri σ2Pri α' :=
  ⟨rfl, rfl, rfl⟩

/-- C7 (counterexample): `NormMuPostMean` performs no validation: called
with `σ = -1 ≤ 0` (nObs = 1, ȳ = 0, μPri = 0, σPri = 1) it does not fail
but returns the numeric result `0`, so not every Normal-mean entry point
fails on `σ ≤ 0`. -/
theorem normMuPostMean_no_validation_cex :
    NormMuPostMean 1 0 (-1) 0 1 = 0 ∧ ((-1 : ℝ) ≤ 0) := by
  constructor
  · norm_num [NormMuPostMean]
  · norm_num

/-- C7 (amended): among the Normal-mean entry points only the flat-prior
sample quantile and the Normal-prior single-observation quantile validate
their input, and each fails (panics) exactly when `σ ≤ 0`; `σPri` is never
checked, and the remaining entry points (posterior mean, posterior std,
Normal-prior sample quantile, credible intervals, discrete PMFs) perform no
`σ`/`σPri` validation at all (they are total functions returning numeric
results). -/
theorem normMu_guards_only_two_quantiles (d : Dst) (nObs : ℤ)
    (y ybar σ μPri σPri p : ℝ) :
    (NormMuQtlFPri d nObs ybar σ p = none ↔ σ ≤ 0) ∧
    (NormMuSingleQtlNPri d y σ μPri σPri p = none ↔ σ ≤ 0) := by
  constructor
  · by_cases h : σ ≤ 0 <;> simp [NormMuQtlFPri, h]
  · by_cases h : σ ≤ 0 <;> simp [NormMuSingleQtlNPri, h]

/-- C4: for equal-length arrays `μ`, `μPri` with `σ > 0`, all prior masses
non-negative and at least one candidate receiving strictly positive
unnormalized mass, both discrete-prior posterior updates (single-observation
and sample variant) return an array of posterior masses summing to `1`, each
mass being the candidate's prior mass times its likelihood, divided by one
common positive normalizer `S` (i.e. proportional to `prior_i · L_i`).
The hypothesis that the collaborator's standard-normal density is
non-negative is part of the Distribution Primitives contract. -/
theorem normMu_discrete_posterior_normalized (d : Dst) (nObs : ℤ)
    (y ybar σ : ℝ) (μ μPri : List ℝ) (hσ : 0 < σ)
    (hlen : μPri.length = μ.length)
    (hZ : ∀ x, 0 ≤ d.ZPDFAt x)
    (hPri : ∀ m ∈ μPri, 0 ≤ m)
    (hex1 : ∃ i, ∃ hi : i < μ.length, ∃ hi' : i < μPri.length,
      0 < μPri.get ⟨i, hi'⟩ * d.ZPDFAt ((y - μ.get ⟨i, hi⟩) / σ))
    (hex2 : ∃ i, ∃ hi' : i < μPri.length, 0 < μPri.get ⟨i, hi'⟩) :
    (∃ post : List ℝ, NormMuSinglePMFDPri d y σ μ μPri = some post ∧
      post.sum = 1 ∧
      ∃ S : ℝ, 0 < S ∧
        ∀ i (hi : i < μ.length) (hi' : i < μPri.length) (hp : i < post.length),
          post.get ⟨i, hp⟩ =
            μPri.get ⟨i, hi'⟩ * d.ZPDFAt ((y - μ.get ⟨i, hi⟩) / σ) / S) ∧
    (∃ post : List ℝ, NormMuPMFDPri nObs ybar σ μ μPri = some post ∧
      post.sum = 1 ∧
      ∃ S : ℝ, 0 < S ∧
        ∀ i (hi : i < μ.length) (hi' : i < μPri.length) (hp : i < post.length),
          post.get ⟨i, hp⟩ =
            μPri.get ⟨i, hi'⟩ *
              Real.exp (-1 / (2 * (σ * σ) / (nObs : ℝ)) *
                ((ybar - μ.get ⟨i, hi⟩) * (ybar - μ.get ⟨i, hi⟩))) / S) := by
  have hmem : ∀ i (hi' : i < μPri.length), μPri.get ⟨i, hi'⟩ ∈ μPri := by
    intro i hi'
    simp only [List.get_eq_getElem]
    exact List.getElem_mem hi'
  have hneq : ¬μPri.length ≠ μ.length := by omega
  constructor
  · obtain ⟨hs, h1, h2⟩ := zipWith_normalize_spec
      (fun μi pi => pi * d.ZPDFAt ((y - μi) / σ)) μ μPri hlen
      (fun i hi hi' => mul_nonneg (hPri _ (hmem i hi')) (hZ _)) hex1
    refine ⟨_, ?_, h1, _, hs, h2⟩
    simp only [NormMuSinglePMFDPri, if_neg hneq]
  · obtain ⟨i0, hi0', hp0⟩ := hex2
    have hi0 : i0 < μ.length := by omega
    obtain ⟨hs, h1, h2⟩ := zipWith_normalize_spec
      (fun μi pi => pi * Real.exp (-1 / (2 * (σ * σ) / (nObs : ℝ)) *
        ((ybar - μi) * (ybar - μi)))) μ μPri hlen
      (fun i hi hi' => mul_nonneg (hPri _ (hmem i hi')) (Real.exp_pos _).le)
      ⟨i0, hi0, hi0', mul_pos hp0 (Real.exp_pos _)⟩
    refine ⟨_, ?_, h1, _, hs, h2⟩
    simp only [NormMuPMFDPri, if_neg hneq]

/-- C4 witness, at `μ = [0, 1]`, `μPri = [1/2, 1/2]`, `y = ȳ = 0`, `σ = 1`,
`nObs = 1`. -/
theorem normMu_discrete_posterior_normalized_witness :
    (0 : ℝ) < 1 ∧
    ((∃ post : List ℝ,
        NormMuSinglePMFDPri dst0 0 1 [0, 1] [1 / 2, 1 / 2] = some post ∧
        post.sum = 1 ∧
        ∃ S : ℝ, 0 < S ∧
          ∀ i (hi : i < ([0, 1] : List ℝ).length)
            (hi' : i < ([1 / 2, 1 / 2] : List ℝ).length) (hp : i < post.length),
            post.get ⟨i, hp⟩ =
              ([1 / 2, 1 / 2] : List ℝ).get ⟨i, hi'⟩ *
                dst0.ZPDFAt ((0 - ([0, 1] : List ℝ).get ⟨i, hi⟩) / 1) / S) ∧
    (∃ post : List ℝ,
        NormMuPMFDPri 1 0 1 [0, 1] [1 / 2, 1 / 2] = some post ∧
        post.sum = 1 ∧
        ∃ S : ℝ, 0 < S ∧
          ∀ i (hi : i < ([0, 1] : List ℝ).length)
            (hi' : i < ([1 / 2, 1 / 2] : List ℝ).length) (hp : i < post.length),
            post.get ⟨i, hp⟩ =
              ([1 / 2, 1 / 2] : List ℝ).get ⟨i, hi'⟩ *
                Real.exp (-1 / (2 * ((1 : ℝ) * 1) / ((1 : ℤ) : ℝ)) *
                  ((0 - ([0, 1] : List ℝ).get ⟨i, hi⟩) *
                   (0 - ([0, 1] : List ℝ).get ⟨i, hi⟩))) / S)) :=
  ⟨by norm_num,
    normMu_discrete_posterior_normalized dst0 1 0 0 1 [0, 1] [1 / 2, 1 / 2]
      (by norm_num) (by decide)
      (fun x => by norm_num [dst0])
      (by
        intro m hm
        simp only [List.mem_cons, List.not_mem_nil, or_false] at hm
        rcases hm with h | h <;> rw [h] <;> norm_num)
      ⟨0, by decide, by decide, by norm_num [dst0, List.get]⟩
      ⟨0, by decide, by norm_num [List.get]⟩⟩

/-- C5: for `0 < p < 1`, `σ > 0`, `σPri > 0`, the single-observation
Normal-prior quantile equals the general sample-based Normal-prior quantile
evaluated at `nObs = 1`, `ȳ = y`: the single-observation conjugate-update
formulas coincide with the general formulas at `n = 1`. -/
theorem normMuSingleQtlNPri_eq_general (d : Dst) (y σ μPri σPri p : ℝ)
    (hp0 : 0 < p) (hp1 : p < 1) (hσ : 0 < σ) (hσPri : 0 < σPri) :
    NormMuSingleQtlNPri d y σ μPri σPri p =
      some (NormMuQtlNPri d 1 y σ μPri σPri p) := by
  have hA : (0 : ℝ) < σ * σ := mul_pos hσ hσ
  have hB : (0 : ℝ) < σPri * σPri := mul_pos hσPri hσPri
  have hAB : σ * σ + σPri * σPri ≠ 0 := by positivity
  simp only [NormMuSingleQtlNPri, NormMuQtlNPri, if_neg (not_le.mpr hσ),
    Int.cast_one]
  have hμ : (σ * σ * μPri + σPri * σPri * y) / (σ * σ + σPri * σPri) =
      (μPri / (σPri * σPri)) / (1 / (σ * σ) + 1 / (σPri * σPri)) +
        y * (1 / (σ * σ)) / (1 / (σ * σ) + 1 / (σPri * σPri)) := by
    field_simp
    ring
  have hσ2 : (σ * σ * (σPri * σPri)) / (σ * σ + σPri * σPri) =
      (σ * σ * (σPri * σPri)) / (σ * σ + 1 * (σPri * σPri)) := by
    rw [one_mul]
  rw [hμ, hσ2]

/-- C5 witness. -/
theorem normMuSingleQtlNPri_eq_general_witness :
    (0 : ℝ) < 1 / 2 ∧ (1 : ℝ) / 2 < 1 ∧ (0 : ℝ) < 1 ∧ (0 : ℝ) < 2 ∧
    NormMuSingleQtlNPri dst0 3 1 0 2 (1 / 2) =
      some (NormMuQtlNPri dst0 1 3 1 0 2 (1 / 2)) :=
  ⟨by norm_num, by norm_num, by norm_num, by norm_num,
    normMuSingleQtlNPri_eq_general dst0 3 1 0 2 (1 / 2)
      (by norm_num) (by norm_num) (by norm_num) (by norm_num)⟩

/-- C2: the known-variance difference-of-means moments accessor returns
mean `μ1Post - μ2Post` and standard deviation `sqrt(σ1Post² + σ2Post²)`,
where `(μiPost, σiPost)` are exactly the Normal-mean module's posterior-mean
and posterior-std functions applied to each sample; in particular
`σdPost² = σ1Post² + σ2Post²`. -/
theorem normalMuDiffMoments_additive_variances (nObs1 nObs2 : ℤ)
    (ybar1 ybar2 σ1 σ2 μ1Pri σ1Pri μ2Pri σ2Pri : ℝ)
    (hn1 : 0 < nObs1) (hn2 : 0 < nObs2) (hσ1 : 0 < σ1) (hσ2 : 0 < σ2)
    (hσ1Pri : 0 < σ1Pri) (hσ2Pri : 0 < σ2Pri) :
    (NormalMuDiffMomentsNPriKn nObs1 nObs2 ybar1 ybar2 σ1 σ2
        μ1Pri σ1Pri μ2Pri σ2Pri).1 =
      NormMuPostMean nObs1 ybar1 σ1 μ1Pri σ1Pri -
        NormMuPostMean nObs2 ybar2 σ2 μ2Pri σ2Pri ∧
    (NormalMuDiffMomentsNPriKn nObs1 nObs2 ybar1 ybar2 σ1 σ2
        μ1Pri σ1Pri μ2Pri σ2Pri).2 =
      Real.sqrt ((NormMuPostStd nObs1 σ1 μ1Pri σ1Pri) ^ 2 +
        (NormMuPostStd nObs2 σ2 μ2Pri σ2Pri) ^ 2) ∧
    (NormalMuDiffMomentsNPriKn nObs1 nObs2 ybar1 ybar2 σ1 σ2
        μ1Pri σ1Pri μ2Pri σ2Pri).2 ^ 2 =
      (NormMuPostStd nObs1 σ1 μ1Pri σ1Pri) ^ 2 +
        (NormMuPostStd nObs2 σ2 μ2Pri σ2Pri) ^ 2 := by
  refine ⟨rfl, ?_, ?_⟩
  · simp only [NormalMuDiffMomentsNPriKn]
    congr 1
    ring
  · simp only [NormalMuDiffMomentsNPriKn]
    have h0 : (0 : ℝ) ≤
        NormMuPostStd nObs1 σ1 μ1Pri σ1Pri * NormMuPostStd nObs1 σ1 μ1Pri σ1Pri +
          NormMuPostStd nObs2 σ2 μ2Pri σ2Pri * NormMuPostStd nObs2 σ2 μ2Pri σ2Pri := by
      nlinarith [sq_nonneg (NormMuPostStd nObs1 σ1 μ1Pri σ1Pri),
        sq_nonneg (NormMuPostStd nObs2 σ2 μ2Pri σ2Pri)]
    rw [Real.sq_sqrt h0]
    ring

/-- C2 witness. -/
theorem normalMuDiffMoments_additive_variances_witness :
    (0 : ℤ) < 1 ∧ (0 : ℤ) < 2 ∧ (0 : ℝ) < 1 ∧ (0 : ℝ) < 2 ∧
    (0 : ℝ) < 3 ∧ (0 : ℝ) < 4 ∧
    ((NormalMuDiffMomentsNPriKn 1 2 5 6 1 2 7 3 8 4).1 =
      NormMuPostMean 1 5 1 7 3 - NormMuPostMean 2 6 2 8 4 ∧
    (NormalMuDiffMomentsNPriKn 1 2 5 6 1 2 7 3 8 4).2 =
      Real.sqrt ((NormMuPostStd 1 1 7 3) ^ 2 + (NormMuPostStd 2 2 8 4) ^ 2) ∧
    (NormalMuDiffMomentsNPriKn 1 2 5 6 1 2 7 3 8 4).2 ^ 2 =
      (NormMuPostStd 1 1 7 3) ^ 2 + (NormMuPostStd 2 2 8 4) ^ 2) :=
  ⟨by norm_num, by norm_num, by norm_num, by norm_num, by norm_num, by norm_num,
    normalMuDiffMoments_additive_variances 1 2 5 6 1 2 7 3 8 4
      (by norm_num) (by norm_num) (by norm_num) (by norm_num)
      (by norm_num) (by norm_num)⟩
